import Mathlib

/-!
Shallow embedding of the remirror monorepo build tooling:

* the config-generation script (`generateExports`, `generateSizeLimitConfig`,
  `generatePackageTsConfigs`, `main`) found in the repository excerpt, and
* the `publish.yml` GitHub Actions workflow.

JavaScript values of type `string | undefined` are modelled as `Option String`;
JS truthiness on such values (`undefined` and `''` are falsy) is made explicit.
Node's `path.join` is modelled for the dot-relative inputs this script feeds it
(no `..` segments and no embedded `./` occur in the package metadata fields).
-/

/-- Lexicographic comparison of character lists, used to model JS string
ordering (`sort-keys` and `localeCompare` on the ASCII paths in play). -/
def charListLe : List Char → List Char → Bool
  | [], _ => true
  | _ :: _, [] => false
  | a :: as, b :: bs => if a = b then charListLe as bs else decide (a < b)

/-- Lexicographic comparison of strings. -/
def strLe (a b : String) : Bool := charListLe a.data b.data

/-- `String.startsWith`, phrased on the underlying character lists. -/
def strStartsWith (s p : String) : Bool := p.data.isPrefixOf s.data

/-- `String.drop`, phrased on the underlying character lists. -/
def strDrop (s : String) (n : Nat) : String := String.mk (s.data.drop n)

/-- Join a list of strings with a separator. -/
def joinSep (sep : String) : List String → String
  | [] => ""
  | [x] => x
  | x :: xs => x ++ sep ++ joinSep sep xs

/-- Split a character list at a separator character. -/
def splitChars (sep : Char) : List Char → List (List Char)
  | [] => [[]]
  | c :: cs =>
    let r := splitChars sep cs
    if c = sep then [] :: r
    else
      match r with
      | h :: t => (c :: h) :: t
      | [] => [[c]]

/-- JS truthiness of a `string | undefined` value: `undefined` and `''` are falsy. -/
def jsTruthy : Option String → Bool
  | some s => s != ""
  | none => false

/-- Normalise a `string | undefined` value to `none` when it is JS-falsy.
Models the `x ? e : undefined` guards of the script. -/
def jsStr : Option String → Option String
  | some s => if s = "" then none else some s
  | none => none

/-- Model of Node `path.join` for the relative inputs used by the script:
`join('.', b) = b`, `join('./a', b) = 'a/b'`, `join(a, b) = 'a/b'`. -/
def pathJoin (a b : String) : String :=
  if a = "" then b
  else if b = "" then a
  else
    let a2 := if a = "." then "" else if strStartsWith a "./" then strDrop a 2 else a
    if a2 = "" then b else a2 ++ "/" ++ b

/-- `prefixRelativePath` from the script: add a `./` prefix to a path that
needs to be seen as relative (the empty string is returned unchanged). -/
def prefixRelativePath (p : String) : String :=
  if p = "" then p
  else if strStartsWith p "." then p
  else "./" ++ p

/-- `prefixRelativePath` lifted to `string | undefined` arguments, as the
script applies it to possibly-undefined expressions. -/
def prefixRelativePathOpt : Option String → Option String
  | none => none
  | some p => some (prefixRelativePath p)

/-- The `browser` field of a package.json: either a string or an object
mapping module paths to replacement paths (`false` entries become `none`). -/
inductive BrowserField where
  | str (s : String)
  | obj (entries : List (String × Option String))
deriving DecidableEq

/-- The package.json fields read by the script.  `sizeLimit` stands for the
nested `pkg['@remirror']?.sizeLimit` metadata field. -/
structure PackageJson where
  name : String := ""
  main : Option String := none
  module : Option String := none
  browser : Option BrowserField := none
  types : Option String := none
  dependencies : List (String × String) := []
  peerDependencies : List (String × String) := []
  sizeLimit : Option String := none
deriving DecidableEq

/-- `getBrowserPath` from the script: the relative path for the browser module
if it exists, otherwise fallback to the `module` path. -/
def getBrowserPath (pkg : PackageJson) : Option String :=
  let browserPath : Option String :=
    match pkg.browser with
    | some (BrowserField.str s) => some s
    | some (BrowserField.obj m) => (m.lookup ("./" ++ pkg.module.getD "undefined")).bind id
    | none => none
  match browserPath with
  | some s => some s
  | none => pkg.module

/-- A generated value of one key of the `exports` map: either a plain string
or a conditions object. -/
inductive ExportVal where
  | str (s : String)
  | obj (fields : List (String × String))
deriving DecidableEq

/-- One key/value pair when the value is defined, nothing otherwise.  Models
`omitUndefined` on the export-conditions object. -/
def optPair (key : String) : Option String → List (String × String)
  | some v => [(key, v)]
  | none => []

/-- One export condition: `field ? prefixRelativePath(path.join(filepath, field)) : undefined`. -/
def exportCondition (filepath : String) (field : Option String) : Option String :=
  prefixRelativePathOpt ((jsStr field).map (fun f => pathJoin filepath f))

/-- The conditions object built by `augmentExportsObject` for one sub-package:
`import`/`require`/`types` come from the sub-package `json`, `browser` from
`getBrowserPath(packageJson)` (the containing package), and `default` is
assigned `field.import` after the others; `omitUndefined` drops absent keys. -/
def exportFieldPairs (filepath : String) (packageJson json : PackageJson) :
    List (String × String) :=
  optPair "import" (exportCondition filepath json.module)
    ++ optPair "require" (exportCondition filepath json.main)
    ++ optPair "browser" (exportCondition filepath (getBrowserPath packageJson))
    ++ optPair "types" (exportCondition filepath json.types)
    ++ optPair "default" (exportCondition filepath json.module)

/-- JS property access `m[k]` on an insertion-ordered association list. -/
def lookupKey {α : Type} : List (String × α) → String → Option α
  | [], _ => none
  | p :: rest, k => if p.1 = k then some p.2 else lookupKey rest k

/-- JS object-key assignment `exportsObject[k] = v` on an insertion-ordered
association list: replace in place if the key exists, append otherwise. -/
def insertKey (m : List (String × ExportVal)) (k : String) (v : ExportVal) :
    List (String × ExportVal) :=
  if m.any (fun p => p.1 == k) then
    m.map (fun p => if p.1 = k then (k, v) else p)
  else
    m ++ [(k, v)]

/-- `augmentExportsObject` from the script, with the mutated
`packageJson.exports` object threaded explicitly as `exportsObject`. -/
def augmentExportsObject (packageJson : PackageJson)
    (exportsObject : List (String × ExportVal)) (filepath0 : String)
    (json : PackageJson) : List (String × ExportVal) :=
  let filepath := if filepath0 = "" then "." else filepath0
  let field := ExportVal.obj (exportFieldPairs filepath packageJson json)
  let e1 := insertKey exportsObject filepath field
  if filepath = "." then
    insertKey (insertKey e1 "./package.json" (ExportVal.str "./package.json"))
      "./types/*" (ExportVal.str "./dist/declarations/src/*.d.ts")
  else
    e1

/-- A nested package.json found by the `globby('**/package.json')` scan:
its path relative to the package `location` and its parsed contents. -/
structure SubPackage where
  relpath : String
  json : PackageJson
deriving DecidableEq

/-- A workspace package as returned by `getAllDependencies`: its package.json
fields, its location (relative to the repo root), the `exports` value stored
on disk, and the nested package.json files below it. -/
structure Package where
  json : PackageJson
  location : String := ""
  storedExports : Option (List (String × ExportVal)) := none
  subPackages : List SubPackage := []
deriving DecidableEq

/-- The loop body of `generateExports` over the sub-packages of one package,
starting from the freshly reset (empty) exports object. -/
def buildExportsObject (pkg : Package) : List (String × ExportVal) :=
  pkg.subPackages.foldl
    (fun acc sp =>
      augmentExportsObject pkg.json acc (prefixRelativePath sp.relpath) sp.json)
    []

/-- Ordering of exports-map entries by key, as produced by `sortKeys`. -/
def keyLe (a b : String × ExportVal) : Prop := strLe a.1 b.1 = true

instance : DecidableRel keyLe := fun a b => inferInstanceAs (Decidable (strLe a.1 b.1 = true))

/-- `sortKeys(exportsObject)`: sort the (top-level) keys of the map. -/
def sortKeysShallow (m : List (String × ExportVal)) : List (String × ExportVal) :=
  List.insertionSort keyLe m

/-- The final exports map generated for one package. -/
def generateExportsEntry (pkg : Package) : List (String × ExportVal) :=
  sortKeysShallow (buildExportsObject pkg)

/-- The `files` list accumulated by the `generateExports` loop: packages
without a truthy `main` are skipped by `continue`; the others contribute
their package.json path and freshly generated exports map. -/
def generateExportsFiles (packages : List Package) :
    List (String × List (String × ExportVal)) :=
  packages.foldl
    (fun files pkg =>
      if jsTruthy pkg.json.main then
        files ++ [(pathJoin pkg.location "package.json", generateExportsEntry pkg)]
      else
        files)
    []

/-- A JSON string literal (the keys and paths in play contain no characters
needing escapes). -/
def renderString (s : String) : String := "\"" ++ s ++ "\""

/-- `JSON.stringify(value, null, 2)` for one value of the exports map, as it
appears nested one level deep. -/
def renderExportVal : ExportVal → String
  | ExportVal.str s => renderString s
  | ExportVal.obj fields =>
    if fields.isEmpty then "\x7b\x7d"
    else
      "\x7b\n"
        ++ joinSep ",\n"
          (fields.map (fun p => "    " ++ renderString p.1 ++ ": " ++ renderString p.2))
        ++ "\n  \x7d"

/-- `JSON.stringify(exports, null, 2)` for a whole exports map. -/
def renderExports (m : List (String × ExportVal)) : String :=
  if m.isEmpty then "\x7b\x7d"
  else
    "\x7b\n"
      ++ joinSep ",\n"
        (m.map (fun p => "  " ++ renderString p.1 ++ ": " ++ renderExportVal p.2))
      ++ "\n\x7d"

/-- The `actual` record of `generateExports`: per processed package (skipping
those without a truthy `main`), the pretty-printed `exports` currently stored
in its package.json, with `JSON.stringify(undefined) ?? ''` giving `''`. -/
def actualOutput (packages : List Package) : List (String × String) :=
  packages.foldl
    (fun acc pkg =>
      if jsTruthy pkg.json.main then
        acc ++ [(pkg.json.name, (pkg.storedExports.map renderExports).getD "")]
      else
        acc)
    []

/-- The `expected` record of `generateExports`: per processed package, the
pretty-printed freshly generated exports map. -/
def expectedOutput (packages : List Package) : List (String × String) :=
  packages.foldl
    (fun acc pkg =>
      if jsTruthy pkg.json.main then
        acc ++ [(pkg.json.name, renderExports (generateExportsEntry pkg))]
      else
        acc)
    []

/-- Modelled from the spec: `compareOutput` is defined in `./helpers`, which
is not part of the excerpt.  Per the spec's "generated JSON matches an
expected snapshot", it throws exactly when the two records differ. -/
def compareOutputThrows (actual expected : List (String × String)) : Bool :=
  decide (actual ≠ expected)

/-- The observable outcome of a `generateExports` run. -/
inductive ExportsOutcome where
  | exitOne
  | noWrites
  | writes (files : List (String × List (String × ExportVal)))
deriving DecidableEq

/-- The control flow of `generateExports` after the per-package loop:
`compareOutput` throws on a mismatch; without an error and without `--force`
the function returns; in `--check` mode an error exits with code 1 and
success returns; otherwise the accumulated files are written. -/
def generateExportsRun (packages : List Package) (check force : Bool) : ExportsOutcome :=
  let error := compareOutputThrows (actualOutput packages) (expectedOutput packages)
  if !error && !force then ExportsOutcome.noWrites
  else if check && error then ExportsOutcome.exitOne
  else if check then ExportsOutcome.noWrites
  else ExportsOutcome.writes (generateExportsFiles packages)

/-- One entry of the generated `.size-limit.json`. -/
structure SizeLimitEntry where
  name : String
  limit : String
  path : String
  ignore : List String
  running : Bool
  gzip : Bool
deriving DecidableEq

/-- Modelled from the spec: `getRelativePathFromJson` is defined in
`./helpers`, which is not part of the excerpt; it returns the path of the
package relative to the repository root, which the embedding stores in
`Package.location`. -/
def getRelativePathFromJson (pkg : Package) : String := pkg.location

/-- `generateSizeLimitConfig` from the script: packages without a truthy
`@remirror.sizeLimit` or without a truthy browser/module entry path are
skipped; the others contribute one entry each. -/
def generateSizeLimitConfig (packages : List Package) : List SizeLimitEntry :=
  packages.foldl
    (fun sizes pkg =>
      match jsStr pkg.json.sizeLimit with
      | none => sizes
      | some limit =>
        match jsStr (getBrowserPath pkg.json) with
        | none => sizes
        | some pathToEntryFile =>
          sizes ++
            [{ name := pkg.json.name
               limit := limit
               path := pathJoin (getRelativePathFromJson pkg) pathToEntryFile
               ignore :=
                 pkg.json.peerDependencies.map Prod.fst
                   ++ (pkg.json.dependencies.map Prod.fst).filter
                     (fun n => strStartsWith n "@remirror/")
               running := false
               gzip := true }])
    []

/-- The size-limit entry of one package as the claim words it: present exactly
when the package declares `@remirror.sizeLimit` and has a resolvable
browser/module entry file; `limit` is the declared value, `path` joins the
package's relative path with its entry file, `ignore` is the peer-dependency
names plus the `@remirror/`-prefixed dependency names, `running` is false and
`gzip` is true. -/
def specSizeLimitEntry (pkg : Package) : Option SizeLimitEntry :=
  match jsStr pkg.json.sizeLimit, jsStr (getBrowserPath pkg.json) with
  | some limit, some entryFile =>
    some
      { name := pkg.json.name
        limit := limit
        path := pathJoin pkg.location entryFile
        ignore :=
          pkg.json.peerDependencies.map Prod.fst
            ++ (pkg.json.dependencies.map Prod.fst).filter
              (fun n => strStartsWith n "@remirror/")
        running := false
        gzip := true }
  | _, _ => none

/-- The command line flags consulted by `main` and `generateExports`. -/
structure CliArgs where
  size : Bool := false
  tsExperimentalReferences : Bool := false
  tsPackages : Bool := false
  exports : Bool := false
  check : Bool := false
  force : Bool := false
deriving DecidableEq

/-- The possible outcomes of each awaited generator call, as seen by `main`:
either it resolves or it rejects with an error message. -/
structure GeneratorResults where
  sizeLimitResult : Except String Unit
  packageTsResult : Except String Unit
  mainTsResult : Except String Unit
  exportsResult : Except String Unit
  formatResult : Except String Unit
  hasFilesToPrettify : Bool

/-- `main` from the script: dispatch on the cli flags to the generators (a
`Promise.all` rejects with the first rejection), then prettify the generated
files unless none were produced. -/
def mainRoutine (args : CliArgs) (g : GeneratorResults) : Except String Unit :=
  let generatorResult : Except String Unit :=
    if args.size then g.sizeLimitResult
    else if args.tsExperimentalReferences then
      match g.packageTsResult with
      | Except.error e => Except.error e
      | Except.ok _ => g.mainTsResult
    else if args.tsPackages then g.packageTsResult
    else if args.exports then g.exportsResult
    else g.sizeLimitResult
  match generatorResult with
  | Except.error e => Except.error e
  | Except.ok _ => if g.hasFilesToPrettify then g.formatResult else Except.ok ()

/-- How the process ends: normal completion, or the `main().catch` handler
logging the error and calling `process.exit` with the given code. -/
inductive ScriptResult where
  | completed
  | loggedErrorAndExited (exitCode : Nat)
deriving DecidableEq

/-- `main().catch(...)` from the script: any error escaping `main` is logged
and the process exits with code 1. -/
def runScript (args : CliArgs) (g : GeneratorResults) : ScriptResult :=
  match mainRoutine args g with
  | Except.ok _ => ScriptResult.completed
  | Except.error _ => ScriptResult.loggedErrorAndExited 1

/-- One tsconfig file computed by `resolveTsConfigMeta` for a package: where
it is written, its (rendered) contents, and whether the root tsconfig should
reference its directory. -/
structure TsConfigFile where
  filepath : String
  content : String
  shouldReference : Bool
deriving DecidableEq

/-- Node `path.dirname` for the multi-segment relative paths in play. -/
def dirnamePath (p : String) : String :=
  joinSep "/" (((splitChars '/' p.data).dropLast).map String.mk)

/-- The references one package task pushes onto the shared `references`
accumulator of `generatePackageTsConfigs`: for each produced tsconfig file
with `shouldReference` set, the path of its directory relative to the repo
root (locations are stored root-relative in the embedding). -/
def taskReferences (resolveMeta : Package → List TsConfigFile) (pkg : Package) :
    List String :=
  ((resolveMeta pkg).filter (fun t => t.shouldReference)).map
    (fun t => dirnamePath t.filepath)

/-- The files one package task writes: every tsconfig file produced by
`resolveTsConfigMeta` for that package, written at its own path. -/
def taskWrites (resolveMeta : Package → List TsConfigFile) (pkg : Package) :
    List (String × String) :=
  (resolveMeta pkg).map (fun t => (t.filepath, t.content))

/-- The `references` list of the root tsconfig written at the end of
`generatePackageTsConfigs`: the references accumulated in task-completion
order, then sorted by path (`localeCompare`). -/
def rootTsconfigReferences (resolveMeta : Package → List TsConfigFile)
    (completionOrder : List Package) : List String :=
  List.insertionSort (fun a b => strLe a b = true)
    (completionOrder.flatMap (taskReferences resolveMeta))

/-- All per-package file writes performed by `generatePackageTsConfigs`, in
task-completion order. -/
def packageTsconfigWrites (resolveMeta : Package → List TsConfigFile)
    (completionOrder : List Package) : List (String × String) :=
  completionOrder.flatMap (taskWrites resolveMeta)

/-- Modelled from the spec: the state of the third-party `p-limit` scheduler
created by `pLimit(os.cpus().length)`, which is not part of the excerpt.  It
keeps a fixed concurrency bound, a count of currently running tasks, and a
queue of tasks not yet started. -/
structure PLimitState where
  concurrency : Nat
  activeCount : Nat
  queued : Nat
deriving DecidableEq

/-- Modelled from the spec: `p-limit` starts a queued task only while fewer
than `concurrency` tasks are active, and a running task may finish at any
time. -/
inductive PLimitStep : PLimitState → PLimitState → Prop
  | start (s : PLimitState) (hq : 0 < s.queued) (ha : s.activeCount < s.concurrency) :
      PLimitStep s ⟨s.concurrency, s.activeCount + 1, s.queued - 1⟩
  | finish (s : PLimitState) (ha : 0 < s.activeCount) :
      PLimitStep s ⟨s.concurrency, s.activeCount - 1, s.queued⟩

/-- The initial scheduler state of `generatePackageTsConfigs`:
`pLimit(os.cpus().length)` with one task queued per workspace package and
nothing running yet. -/
def tsconfigTaskInit (ncpus npackages : Nat) : PLimitState :=
  ⟨ncpus, 0, npackages⟩

/-- The output of the `changelog-parser-action` step for one CHANGELOG.md:
the parsed versions, newest first, each with its section body. -/
structure ParsedChangelog where
  versions : List (String × String)
deriving DecidableEq

/-- `fromJSON(...).versions[0].version`: the newest parsed version. -/
def newestVersion (c : ParsedChangelog) : String := (c.versions.headD ("", "")).1

/-- `fromJSON(...).versions[0].body`: the newest version's changelog section. -/
def newestBody (c : ParsedChangelog) : String := (c.versions.headD ("", "")).2

/-- The action performed by one step of the `npm` job of `publish.yml`. -/
inductive StepAction where
  | checkout
  | cache
  | setupNode (version : Nat)
  | pnpmInstall
  | runCommand (cmd : String)
  | parseChangelog (filePath : String)
  | createRelease (commit tag body : String)
deriving DecidableEq

/-- One step of the `npm` job: its name, action, and `continue-on-error`. -/
structure JobStep where
  name : String
  action : StepAction
  continueOnError : Bool
deriving DecidableEq

/-- The step list of the `npm` job of `publish.yml`, with the changelog of
each released package given as the parser outputs it. -/
def publishJobSteps (react pm remirror : ParsedChangelog) : List JobStep :=
  [ ⟨"checkout code repository", StepAction.checkout, false⟩,
    ⟨"setup caching", StepAction.cache, false⟩,
    ⟨"setup node.js", StepAction.setupNode 14, false⟩,
    ⟨"install and audit", StepAction.pnpmInstall, false⟩,
    ⟨"build project", StepAction.runCommand "pnpm build", false⟩,
    ⟨"publish npm release", StepAction.runCommand "pnpm release", false⟩,
    ⟨"parse changelog for @remirror/react",
      StepAction.parseChangelog "packages/remirror__react/CHANGELOG.md", false⟩,
    ⟨"create release for @remirror/react",
      StepAction.createRelease "main" ("@remirror/react@" ++ newestVersion react)
        (newestBody react), true⟩,
    ⟨"parse changelog for @remirror/pm",
      StepAction.parseChangelog "packages/remirror__pm/CHANGELOG.md", false⟩,
    ⟨"create release for @remirror/pm",
      StepAction.createRelease "main" ("@remirror/pm@" ++ newestVersion pm)
        (newestBody pm), true⟩,
    ⟨"parse changelog for remirror",
      StepAction.parseChangelog "packages/remirror/CHANGELOG.md", false⟩,
    ⟨"create release for remirror",
      StepAction.createRelease "main" ("remirror@" ++ newestVersion remirror)
        (newestBody remirror), true⟩ ]

/-- Whether a step is one of the `ncipollo/release-action` steps. -/
def isCreateRelease (s : JobStep) : Bool :=
  match s.action with
  | StepAction.createRelease _ _ _ => true
  | _ => false

/-- GitHub Actions step semantics: run the steps in order, each paired with
whether it fails; a failing step with `continue-on-error` does not affect the
job, a failing step without it stops the job and fails it.  Returns the job
conclusion (`true` for success) and the number of steps that were run. -/
def runJobSteps : List (JobStep × Bool) → Bool × Nat
  | [] => (true, 0)
  | (step, failed) :: rest =>
    if failed && !step.continueOnError then (false, 1)
    else
      let r := runJobSteps rest
      (r.1, r.2 + 1)

/-- A failure pattern for the `npm` job in which only the three
create-release steps may fail. -/
def releaseFailurePattern (f1 f2 f3 : Bool) : List Bool :=
  [false, false, false, false, false, false, false, f1, false, f2, false, f3]

/-- The `workflow_run` event delivered to `publish.yml`. -/
structure WorkflowRunEvent where
  workflowName : String
  branch : String
  activityType : String
  conclusion : String
deriving DecidableEq

/-- The `on.workflow_run` trigger of `publish.yml`: completion of the `ci`
workflow on the `main` branch. -/
def publishTriggered (e : WorkflowRunEvent) : Bool :=
  (e.workflowName == "ci") && (e.branch == "main") && (e.activityType == "completed")

/-- The `npm` job runs when the workflow is triggered and its
`if: github.event.workflow_run.conclusion == 'success'` guard passes. -/
def npmJobRuns (e : WorkflowRunEvent) : Bool :=
  publishTriggered e && (e.conclusion == "success")

/-- The key under which `augmentExportsObject` stores a sub-package: its
`./`-prefixed relative path, with the empty path (the package root) mapped to
`.` by the `filepath || '.'` fallback. -/
def subKey (sp : SubPackage) : String :=
  let f := prefixRelativePath sp.relpath
  if f = "" then "." else f

/-- The export-conditions object for one sub-package as claim C1 words it:
every condition, including `browser`, is drawn from the sub-package's own
package.json. -/
def specExportFieldPairs (filepath : String) (json : PackageJson) :
    List (String × String) :=
  optPair "import" (exportCondition filepath json.module)
    ++ optPair "require" (exportCondition filepath json.main)
    ++ optPair "browser" (exportCondition filepath (getBrowserPath json))
    ++ optPair "types" (exportCondition filepath json.types)
    ++ optPair "default" (exportCondition filepath json.module)

/-! ### Concrete fixtures used by counterexamples and witnesses -/

/-- A package.json with a `main` entry and neither `browser` nor `module`. -/
def cexParent : PackageJson := { name := "@remirror/core", main := some "dist/index.js" }

/-- A nested package.json carrying its own `browser` build. -/
def cexSub : PackageJson :=
  { name := "sub", main := some "dist/sub.cjs", module := some "dist/sub.js",
    browser := some (BrowserField.str "dist/sub.browser.js"),
    types := some "dist/sub.d.ts" }

/-- A workspace package whose nested sub-package has a `browser` field that
the containing package lacks. -/
def cexPkg : Package :=
  { json := cexParent, location := "packages/core",
    subPackages := [⟨"", cexParent⟩, ⟨"sub", cexSub⟩] }

/-- A package.json whose `module` field feeds `getBrowserPath`. -/
def cexParentB : PackageJson :=
  { name := "@remirror/host", main := some "dist/host.cjs", module := some "dist/p.js" }

/-- A nested package.json with no entry fields at all. -/
def cexSubB : PackageJson := { name := "lib" }

/-- A package whose stored exports disagree with the generated ones. -/
def wMismatchPkg : Package :=
  { json := cexParent, location := "packages/core", storedExports := none }

/-- A package whose stored exports equal the generated ones. -/
def wMatchPkg : Package :=
  { json := cexParent, location := "packages/core", storedExports := some [] }

/-- Generator outcomes in which the size-limit generator rejects. -/
def wGenResults : GeneratorResults :=
  { sizeLimitResult := Except.error "boom"
    packageTsResult := Except.ok ()
    mainTsResult := Except.ok ()
    exportsResult := Except.ok ()
    formatResult := Except.ok ()
    hasFilesToPrettify := false }

/-- A concrete per-package tsconfig resolution. -/
def wResolveMeta (pkg : Package) : List TsConfigFile :=
  [⟨pathJoin pkg.location "src/tsconfig.json", "cfg", true⟩]

/-- A second workspace package, to permute against `wMismatchPkg`. -/
def wOtherPkg : Package :=
  { json := cexParentB, location := "packages/host" }

/-! ### Order lemmas for the string comparison used by the sorts -/

theorem charListLe_total (as bs : List Char) :
    charListLe as bs = true ∨ charListLe bs as = true := by
  induction as generalizing bs with
  | nil => left; rfl
  | cons a as ih =>
    cases bs with
    | nil => right; rfl
    | cons b bs =>
      by_cases hab : a = b
      · subst hab
        rcases ih bs with h | h
        · left; simpa [charListLe] using h
        · right; simpa [charListLe] using h
      · rcases lt_or_gt_of_ne hab with h | h
        · left; simp [charListLe, hab, h]
        · right; simp [charListLe, Ne.symm hab, h, not_lt.mpr (le_of_lt h)]

theorem charListLe_trans {as bs cs : List Char} (h1 : charListLe as bs = true)
    (h2 : charListLe bs cs = true) : charListLe as cs = true := by
  induction as generalizing bs cs with
  | nil => rfl
  | cons a as ih =>
    cases bs with
    | nil => simp [charListLe] at h1
    | cons b bs =>
      cases cs with
      | nil => simp [charListLe] at h2
      | cons c cs =>
        by_cases hab : a = b <;> by_cases hbc : b = c
        · subst hab; subst hbc
          simp [charListLe] at h1 h2 ⊢
          exact ih h1 h2
        · subst hab
          simp [charListLe, hbc] at h2 ⊢
          by_cases hac : a = c
          · subst hac; exact absurd h2 (lt_irrefl a)
          · simp [hac, h2]
        · subst hbc
          simp [charListLe, hab] at h1 ⊢
          simp [hab, h1]
        · simp [charListLe, hab] at h1
          simp [charListLe, hbc] at h2
          have hac : a < c := lt_trans h1 h2
          simp [charListLe, ne_of_lt hac, hac]

theorem charListLe_antisymm {as bs : List Char} (h1 : charListLe as bs = true)
    (h2 : charListLe bs as = true) : as = bs := by
  induction as generalizing bs with
  | nil =>
    cases bs with
    | nil => rfl
    | cons b bs => simp [charListLe] at h2
  | cons a as ih =>
    cases bs with
    | nil => simp [charListLe] at h1
    | cons b bs =>
      by_cases hab : a = b
      · subst hab
        simp [charListLe] at h1 h2
        exact congrArg _ (ih h1 h2)
      · simp [charListLe, hab] at h1
        simp [charListLe, Ne.symm hab] at h2
        exact absurd (lt_trans h1 h2) (lt_irrefl a)

theorem strLe_total (a b : String) : strLe a b = true ∨ strLe b a = true :=
  charListLe_total a.data b.data

theorem strLe_trans {a b c : String} (h1 : strLe a b = true) (h2 : strLe b c = true) :
    strLe a c = true :=
  charListLe_trans h1 h2

theorem strLe_antisymm {a b : String} (h1 : strLe a b = true) (h2 : strLe b a = true) :
    a = b := by
  cases a; cases b
  exact congrArg _ (charListLe_antisymm h1 h2)

instance : IsTotal (String × ExportVal) keyLe := ⟨fun a b => strLe_total a.1 b.1⟩

instance : IsTrans (String × ExportVal) keyLe := ⟨fun _ _ _ h h2 => strLe_trans h h2⟩

instance : IsTotal String (fun a b => strLe a b = true) := ⟨strLe_total⟩

instance : IsTrans String (fun a b => strLe a b = true) := ⟨fun _ _ _ => strLe_trans⟩

instance : IsAntisymm String (fun a b => strLe a b = true) := ⟨fun _ _ => strLe_antisymm⟩

/-! ### Lemmas about JS object assignment and property access -/

theorem mem_insertKey_self (m : List (String × ExportVal)) (k : String) (v : ExportVal) :
    (k, v) ∈ insertKey m k v := by
  unfold insertKey
  by_cases h : m.any (fun p => p.1 == k) = true
  · simp only [h, if_true]
    rcases List.any_eq_true.mp h with ⟨p, hp, hpk⟩
    exact List.mem_map.mpr ⟨p, hp, by simp [show p.1 = k from by simpa using hpk]⟩
  · simp only [h, if_false, Bool.false_eq_true]
    simp [h]

theorem mem_insertKey_of_ne {m : List (String × ExportVal)} {k : String} {v : ExportVal}
    (k2 : String) (v2 : ExportVal) (hne : k ≠ k2) (h : (k, v) ∈ m) :
    (k, v) ∈ insertKey m k2 v2 := by
  unfold insertKey
  by_cases hc : m.any (fun p => p.1 == k2) = true
  · simp only [hc, if_true]
    exact List.mem_map.mpr ⟨(k, v), h, by simp [hne]⟩
  · simp only [hc]
    simp [h]

theorem lookupKey_map_replace (k : String) (v : ExportVal) :
    ∀ m : List (String × ExportVal), m.any (fun p => p.1 == k) = true →
      lookupKey (m.map (fun p => if p.1 = k then (k, v) else p)) k = some v := by
  intro m
  induction m with
  | nil => intro h; simp at h
  | cons p m ih =>
    intro h
    by_cases hp : p.1 = k
    · simp [lookupKey, hp]
    · have h2 : m.any (fun q => q.1 == k) = true := by
        simp only [List.any_cons, Bool.or_eq_true, beq_iff_eq] at h
        exact List.any_eq_true.mpr (by simpa using h.resolve_left hp)
      simp [lookupKey, hp, ih h2]

theorem lookupKey_append_fresh (k : String) (v : ExportVal) :
    ∀ m : List (String × ExportVal), m.any (fun p => p.1 == k) = false →
      lookupKey (m ++ [(k, v)]) k = some v := by
  intro m
  induction m with
  | nil => simp [lookupKey]
  | cons p m ih =>
    intro h
    have h1 : (p.1 == k) = false := by
      by_contra hb
      simp only [List.any_cons, Bool.or_eq_true] at h
      simp [Bool.not_eq_false] at hb
      simp [hb] at h
    have h2 : m.any (fun q => q.1 == k) = false := by
      by_contra hb
      simp only [Bool.not_eq_false] at hb
      simp [List.any_cons, hb] at h
    have hp : p.1 ≠ k := by simpa using h1
    simpa [lookupKey, hp] using ih h2

theorem lookupKey_insertKey_self (m : List (String × ExportVal)) (k : String) (v : ExportVal) :
    lookupKey (insertKey m k v) k = some v := by
  unfold insertKey
  by_cases h : m.any (fun p => p.1 == k) = true
  · simp only [h, if_true]
    exact lookupKey_map_replace k v m h
  · simp only [h, if_false, Bool.false_eq_true]
    simp only [Bool.not_eq_true] at h
    exact lookupKey_append_fresh k v m h

theorem lookupKey_map_replace_ne (k2 : String) (v2 : ExportVal) {k : String} (hne : k ≠ k2) :
    ∀ m : List (String × ExportVal),
      lookupKey (m.map (fun p => if p.1 = k2 then (k2, v2) else p)) k = lookupKey m k := by
  intro m
  induction m with
  | nil => rfl
  | cons p m ih =>
    by_cases hp : p.1 = k2
    · simp [lookupKey, hp, Ne.symm hne, ih]
    · simp [lookupKey, hp, ih]

theorem lookupKey_append_single_ne (k2 : String) (v2 : ExportVal) {k : String} (hne : k ≠ k2) :
    ∀ m : List (String × ExportVal), lookupKey (m ++ [(k2, v2)]) k = lookupKey m k := by
  intro m
  induction m with
  | nil => simp [lookupKey, Ne.symm hne]
  | cons p m ih =>
    by_cases hp : p.1 = k
    · simp [lookupKey, hp]
    · simp [lookupKey, hp, ih]

theorem lookupKey_insertKey_ne (m : List (String × ExportVal)) (k2 : String) (v2 : ExportVal)
    {k : String} (hne : k ≠ k2) : lookupKey (insertKey m k2 v2) k = lookupKey m k := by
  unfold insertKey
  by_cases h : m.any (fun p => p.1 == k2) = true
  · simp only [h, if_true]
    exact lookupKey_map_replace_ne k2 v2 hne m
  · simp only [h, if_false, Bool.false_eq_true]
    exact lookupKey_append_single_ne k2 v2 hne m

/-! ### Lemmas about the exports-generation loop -/

theorem subKey_augment (sp : SubPackage) (pj : PackageJson) (acc : List (String × ExportVal)) :
    augmentExportsObject pj acc (prefixRelativePath sp.relpath) sp.json
      = (let field := ExportVal.obj (exportFieldPairs (subKey sp) pj sp.json)
         let e1 := insertKey acc (subKey sp) field
         if subKey sp = "." then
           insertKey (insertKey e1 "./package.json" (ExportVal.str "./package.json"))
             "./types/*" (ExportVal.str "./dist/declarations/src/*.d.ts")
         else e1) := rfl

theorem mem_augment_self (pj : PackageJson) (acc : List (String × ExportVal)) (sp : SubPackage)
    (hk2 : subKey sp ≠ "./package.json") (hk3 : subKey sp ≠ "./types/*") :
    (subKey sp, ExportVal.obj (exportFieldPairs (subKey sp) pj sp.json))
      ∈ augmentExportsObject pj acc (prefixRelativePath sp.relpath) sp.json := by
  rw [subKey_augment]
  by_cases hdot : subKey sp = "."
  · simp only [hdot, if_true]
    rw [← hdot]
    exact mem_insertKey_of_ne _ _ hk3 (mem_insertKey_of_ne _ _ hk2 (mem_insertKey_self _ _ _))
  · simp only [hdot, if_false]
    exact mem_insertKey_self _ _ _

theorem mem_augment_of_ne (pj : PackageJson) (acc : List (String × ExportVal)) (sp : SubPackage)
    {k : String} {v : ExportVal}
    (hk1 : k ≠ subKey sp) (hk2 : k ≠ "./package.json") (hk3 : k ≠ "./types/*")
    (h : (k, v) ∈ acc) :
    (k, v) ∈ augmentExportsObject pj acc (prefixRelativePath sp.relpath) sp.json := by
  rw [subKey_augment]
  by_cases hdot : subKey sp = "."
  · simp only [hdot, if_true]
    exact mem_insertKey_of_ne _ _ hk3
      (mem_insertKey_of_ne _ _ hk2 (mem_insertKey_of_ne _ _ (hdot ▸ hk1) h))
  · simp only [hdot, if_false]
    exact mem_insertKey_of_ne _ _ hk1 h

theorem mem_foldl_augment (pj j0 : PackageJson) (k : String)
    (hk2 : k ≠ "./package.json") (hk3 : k ≠ "./types/*") :
    ∀ (l : List SubPackage) (acc : List (String × ExportVal)),
      (k, ExportVal.obj (exportFieldPairs k pj j0)) ∈ acc →
      (∀ sp ∈ l, subKey sp = k → sp.json = j0) →
      (k, ExportVal.obj (exportFieldPairs k pj j0)) ∈
        l.foldl (fun acc sp =>
          augmentExportsObject pj acc (prefixRelativePath sp.relpath) sp.json) acc := by
  intro l
  induction l with
  | nil => intro acc h _; exact h
  | cons sp l ih =>
    intro acc h hkeys
    rw [List.foldl_cons]
    refine ih _ ?_ (fun sp2 h2 => hkeys sp2 (List.mem_cons_of_mem _ h2))
    by_cases hk : subKey sp = k
    · have hj : sp.json = j0 := hkeys sp (List.mem_cons_self _ _) hk
      rw [hj]
      have hsk : subKey (⟨sp.relpath, j0⟩ : SubPackage) = k := hk
      have h5 := mem_augment_self pj acc ⟨sp.relpath, j0⟩
        (by rw [hsk]; exact hk2) (by rw [hsk]; exact hk3)
      rw [hsk] at h5
      exact h5
    · exact mem_augment_of_ne pj acc sp (Ne.symm hk) hk2 hk3 h

theorem mem_buildExportsObject (pkg : Package) (sp : SubPackage)
    (hmem : sp ∈ pkg.subPackages)
    (huniq : ∀ sp2 ∈ pkg.subPackages, subKey sp2 = subKey sp → sp2.json = sp.json)
    (hk2 : subKey sp ≠ "./package.json") (hk3 : subKey sp ≠ "./types/*") :
    (subKey sp, ExportVal.obj (exportFieldPairs (subKey sp) pkg.json sp.json))
      ∈ buildExportsObject pkg := by
  rcases List.append_of_mem hmem with ⟨l1, l2, hsplit⟩
  unfold buildExportsObject
  rw [hsplit, List.foldl_append, List.foldl_cons]
  refine mem_foldl_augment pkg.json sp.json (subKey sp) hk2 hk3 l2 _ ?_ ?_
  · exact mem_augment_self pkg.json _ sp hk2 hk3
  · intro sp2 h2 hkk
    exact huniq sp2 (by rw [hsplit]; exact List.mem_append_right _ (List.mem_cons_of_mem _ h2)) hkk

theorem foldl_files_acc (l : List Package) :
    ∀ acc,
      l.foldl
        (fun files pkg =>
          if jsTruthy pkg.json.main then
            files ++ [(pathJoin pkg.location "package.json", generateExportsEntry pkg)]
          else files) acc
      = acc ++ (l.filter (fun p => jsTruthy p.json.main)).map
          (fun p => (pathJoin p.location "package.json", generateExportsEntry p)) := by
  induction l with
  | nil => intro acc; simp
  | cons p l ih =>
    intro acc
    by_cases h : jsTruthy p.json.main = true
    · simp [List.foldl_cons, h, ih, List.filter_cons]
    · simp only [Bool.not_eq_true] at h
      simp [List.foldl_cons, h, ih, List.filter_cons]

theorem dotSlash_append_inj {a b : String} (h : "./" ++ a = "./" ++ b) : a = b := by
  have h2 := congrArg String.data h
  simp [String.data_append] at h2
  cases a; cases b
  exact congrArg _ h2

theorem dotSlash_append_ne_empty (s : String) : ("./" ++ s) ≠ "" := by
  intro h
  have h2 := congrArg String.data h
  simp [String.data_append] at h2

theorem subKey_of_plain (sp : SubPackage) (h1 : sp.relpath ≠ "")
    (h2 : strStartsWith sp.relpath "." = false) : subKey sp = "./" ++ sp.relpath := by
  unfold subKey prefixRelativePath
  simp only [h1, if_false, h2, Bool.false_eq_true, if_neg (dotSlash_append_ne_empty sp.relpath)]

/-! ### Claim theorems -/

/-- C1 (amended): in `--exports` mode the generator computes a fresh exports
map per package with a truthy `main` field: each nested sub-package at a
plain relative path `p` becomes an entry keyed `./p` whose conditions join
the sub-package's `module`, `main` and `types` fields — but whose `browser`
condition comes from the browser path of the containing package's
package.json, not the sub-package's — the map's keys are sorted, and
packages lacking a `main` field contribute no file write. -/
theorem exports_generation_from_metadata
    (packages : List Package) (pkg : Package) (sp : SubPackage)
    (hmain : jsTruthy pkg.json.main = true)
    (hmem : sp ∈ pkg.subPackages)
    (hne : sp.relpath ≠ "") (hdot : strStartsWith sp.relpath "." = false)
    (hpj : sp.relpath ≠ "package.json") (hty : sp.relpath ≠ "types/*")
    (huniq : ∀ sp2 ∈ pkg.subPackages, subKey sp2 = subKey sp → sp2.json = sp.json) :
    subKey sp = "./" ++ sp.relpath
    ∧ ("./" ++ sp.relpath,
        ExportVal.obj (exportFieldPairs ("./" ++ sp.relpath) pkg.json sp.json))
        ∈ generateExportsEntry pkg
    ∧ List.Sorted keyLe (generateExportsEntry pkg)
    ∧ generateExportsFiles packages
        = (packages.filter (fun p => jsTruthy p.json.main)).map
            (fun p => (pathJoin p.location "package.json", generateExportsEntry p)) := by
  have hsk := subKey_of_plain sp hne hdot
  have hk2 : subKey sp ≠ "./package.json" := by
    rw [hsk]
    intro h
    exact hpj (dotSlash_append_inj (h.trans (by decide)))
  have hk3 : subKey sp ≠ "./types/*" := by
    rw [hsk]
    intro h
    exact hty (dotSlash_append_inj (h.trans (by decide)))
  refine ⟨hsk, ?_, ?_, ?_⟩
  · have hb := mem_buildExportsObject pkg sp hmem huniq hk2 hk3
    rw [hsk] at hb
    exact (List.mem_insertionSort keyLe).mpr hb
  · exact List.sorted_insertionSort keyLe _
  · simpa [generateExportsFiles] using foldl_files_acc packages []

/-- C1 counterexample: for a sub-package that declares its own `browser`
build while the containing package has no browser path, the generated entry
has no `browser` condition at all, so it differs from the entry the claim
describes, which joins the sub-package's own browser field. -/
theorem exports_browser_from_parent_cex :
    lookupKey (buildExportsObject cexPkg) "./sub"
      = some (ExportVal.obj
          [("import", "./sub/dist/sub.js"), ("require", "./sub/dist/sub.cjs"),
           ("types", "./sub/dist/sub.d.ts"), ("default", "./sub/dist/sub.js")])
    ∧ getBrowserPath cexSub = some "dist/sub.browser.js"
    ∧ lookupKey (specExportFieldPairs "./sub" cexSub) "browser"
        = some "./sub/dist/sub.browser.js"
    ∧ lookupKey (buildExportsObject cexPkg) "./sub"
        ≠ some (ExportVal.obj (specExportFieldPairs "./sub" cexSub)) := by
  refine ⟨by decide, by decide, by decide, by decide⟩

/-- Witness for C1 at a concrete package with one nested sub-package. -/
theorem exports_generation_from_metadata_witness :
    jsTruthy cexPkg.json.main = true
    ∧ subKey ⟨"sub", cexSub⟩ = "./" ++ "sub"
    ∧ ("./" ++ "sub", ExportVal.obj (exportFieldPairs ("./" ++ "sub") cexPkg.json cexSub))
        ∈ generateExportsEntry cexPkg :=
  have h := exports_generation_from_metadata [cexPkg] cexPkg ⟨"sub", cexSub⟩
    (by decide) (by decide) (by decide) (by decide) (by decide) (by decide) (by decide)
  ⟨by decide, h.1, h.2.1⟩

/-- C2: in `--check` mode a mismatch between the stored and the freshly
generated exports exits with code 1 and writes nothing; matching exports
without `--force` also write nothing; files are written only outside check
mode; the comparison is equality of the per-package pretty-printed JSON. -/
theorem exports_check_mode (packages : List Package) (check force : Bool) :
    (check = true → actualOutput packages ≠ expectedOutput packages →
        generateExportsRun packages check force = ExportsOutcome.exitOne)
    ∧ (actualOutput packages = expectedOutput packages → force = false →
        generateExportsRun packages check force = ExportsOutcome.noWrites)
    ∧ (∀ fs, generateExportsRun packages check force = ExportsOutcome.writes fs →
        check = false) := by
  refine ⟨?_, ?_, ?_⟩
  · intro hc hne
    subst hc
    simp [generateExportsRun, compareOutputThrows, hne]
  · intro heq hf
    subst hf
    simp [generateExportsRun, compareOutputThrows, heq]
  · intro fs h
    cases hc : check with
    | false => rfl
    | true =>
      exfalso
      rw [hc] at h
      by_cases he : compareOutputThrows (actualOutput packages) (expectedOutput packages) = true
        <;> by_cases hf : force = true
        <;> simp only [Bool.not_eq_true] at he hf
        <;> simp [generateExportsRun, he, hf] at h

/-- Witness for C2: a mismatching package exits with code 1 in check mode, a
matching package without force writes nothing, and a write implies check
mode is off. -/
theorem exports_check_mode_witness :
    (actualOutput [wMismatchPkg] ≠ expectedOutput [wMismatchPkg]
      ∧ generateExportsRun [wMismatchPkg] true false = ExportsOutcome.exitOne)
    ∧ (actualOutput [wMatchPkg] = expectedOutput [wMatchPkg]
      ∧ generateExportsRun [wMatchPkg] true false = ExportsOutcome.noWrites)
    ∧ (false : Bool) = false :=
  ⟨⟨by decide, (exports_check_mode [wMismatchPkg] true false).1 rfl (by decide)⟩,
   ⟨by decide, (exports_check_mode [wMatchPkg] true false).2.1 (by decide) rfl⟩,
   (exports_check_mode [wMismatchPkg] false false).2.2
     (generateExportsFiles [wMismatchPkg]) (by decide)⟩

/-- C3: every error escaping `main` is logged and terminates the process
with exit code 1, and a successful `main` completes normally — there is no
retry or recovery path. -/
theorem script_error_exit (args : CliArgs) (g : GeneratorResults) :
    (∀ e, mainRoutine args g = Except.error e →
        runScript args g = ScriptResult.loggedErrorAndExited 1)
    ∧ (∀ u, mainRoutine args g = Except.ok u → runScript args g = ScriptResult.completed) := by
  constructor <;> intro x h <;> simp [runScript, h]

/-- Witness for C3: a rejecting size-limit generator makes the script log
and exit with code 1. -/
theorem script_error_exit_witness :
    mainRoutine { } wGenResults = Except.error "boom"
    ∧ runScript { } wGenResults = ScriptResult.loggedErrorAndExited 1 :=
  ⟨rfl, (script_error_exit { } wGenResults).1 "boom" rfl⟩

/-- C4: after the npm publish step, the workflow's create-release steps are,
in order, for `@remirror/react`, `@remirror/pm` and `remirror`, each tagged
`<package-name>@<version>` with the newest version parsed from that
package's CHANGELOG.md and bodied with that version's changelog section, and
the `remirror` release step is the last step of the job. -/
theorem publish_release_steps (react pm remirror : ParsedChangelog) :
    ((publishJobSteps react pm remirror).filter isCreateRelease)
      = [⟨"create release for @remirror/react",
          StepAction.createRelease "main" ("@remirror/react@" ++ newestVersion react)
            (newestBody react), true⟩,
         ⟨"create release for @remirror/pm",
          StepAction.createRelease "main" ("@remirror/pm@" ++ newestVersion pm)
            (newestBody pm), true⟩,
         ⟨"create release for remirror",
          StepAction.createRelease "main" ("remirror@" ++ newestVersion remirror)
            (newestBody remirror), true⟩]
    ∧ (publishJobSteps react pm remirror).getLast?
        = some ⟨"create release for remirror",
            StepAction.createRelease "main" ("remirror@" ++ newestVersion remirror)
              (newestBody remirror), true⟩ :=
  ⟨rfl, rfl⟩

/-- C5: each of the three create-release steps carries `continue-on-error`,
so any combination of their failures leaves the job conclusion successful
and lets all twelve steps run. -/
theorem release_continue_on_error (react pm remirror : ParsedChangelog) (f1 f2 f3 : Bool) :
    runJobSteps ((publishJobSteps react pm remirror).zip (releaseFailurePattern f1 f2 f3))
      = (true, 12) := by
  cases f1 <;> cases f2 <;> cases f3 <;> rfl

/-- C6: the parallel per-package tsconfig tasks produce order-independent
output — the root tsconfig references, sorted before the write, are equal
for every completion order, and the per-package file writes are the same
collection. -/
theorem tsconfig_order_independence (resolveMeta : Package → List TsConfigFile)
    (order1 order2 : List Package) (h : order1.Perm order2) :
    rootTsconfigReferences resolveMeta order1 = rootTsconfigReferences resolveMeta order2
    ∧ (packageTsconfigWrites resolveMeta order1).Perm
        (packageTsconfigWrites resolveMeta order2) := by
  have hflat : (order1.flatMap (taskReferences resolveMeta)).Perm
      (order2.flatMap (taskReferences resolveMeta)) := h.flatMap_right _
  refine ⟨?_, h.flatMap_right _⟩
  exact List.eq_of_perm_of_sorted
    (((List.perm_insertionSort _ _).trans hflat).trans (List.perm_insertionSort _ _).symm)
    (List.sorted_insertionSort _ _) (List.sorted_insertionSort _ _)

/-- Witness for C6 at two concrete completion orders of two packages. -/
theorem tsconfig_order_independence_witness :
    ([wMismatchPkg, wOtherPkg].Perm [wOtherPkg, wMismatchPkg])
    ∧ rootTsconfigReferences wResolveMeta [wMismatchPkg, wOtherPkg]
        = rootTsconfigReferences wResolveMeta [wOtherPkg, wMismatchPkg] :=
  ⟨by decide, (tsconfig_order_independence wResolveMeta _ _ (by decide)).1⟩

/-- C7: in every state reachable from the initial scheduler state of
`generatePackageTsConfigs`, at most `os.cpus().length` package tasks are
running concurrently. -/
theorem plimit_concurrency_bound (ncpus npackages : Nat) (s : PLimitState)
    (h : Relation.ReflTransGen PLimitStep (tsconfigTaskInit ncpus npackages) s) :
    s.activeCount ≤ ncpus := by
  suffices hs : s.concurrency = ncpus ∧ s.activeCount ≤ ncpus from hs.2
  induction h with
  | refl => exact ⟨rfl, Nat.zero_le _⟩
  | tail hab hbc ih =>
    rcases ih with ⟨hc, hle⟩
    cases hbc with
    | start hq ha => exact ⟨hc, by dsimp only; omega⟩
    | finish ha => exact ⟨hc, by dsimp only; omega⟩

/-- Witness for C7 at the initial state with eight cpus and twenty tasks. -/
theorem plimit_concurrency_bound_witness :
    (tsconfigTaskInit 8 20).activeCount ≤ 8 :=
  plimit_concurrency_bound 8 20 _ Relation.ReflTransGen.refl

theorem jsStr_isSome (o : Option String) : (jsStr o).isSome = jsTruthy o := by
  cases o with
  | none => rfl
  | some s => by_cases h : s = "" <;> simp [jsStr, jsTruthy, h]

/-- C8: the generated `.size-limit.json` has exactly one entry per package
that declares `@remirror.sizeLimit` and has a resolvable browser/module
entry file, and none otherwise; each entry carries the declared limit, the
joined path, the peer-dependency and internal-dependency ignore list,
`running := false` and `gzip := true`. -/
theorem size_limit_config_refines (packages : List Package) :
    generateSizeLimitConfig packages = packages.filterMap specSizeLimitEntry
    ∧ ∀ pkg : Package, (specSizeLimitEntry pkg).isSome
        = (jsTruthy pkg.json.sizeLimit && jsTruthy (getBrowserPath pkg.json)) := by
  constructor
  · have aux : ∀ (l : List Package) (acc : List SizeLimitEntry),
        l.foldl
          (fun sizes pkg =>
            match jsStr pkg.json.sizeLimit with
            | none => sizes
            | some limit =>
              match jsStr (getBrowserPath pkg.json) with
              | none => sizes
              | some pathToEntryFile =>
                sizes ++
                  [{ name := pkg.json.name
                     limit := limit
                     path := pathJoin (getRelativePathFromJson pkg) pathToEntryFile
                     ignore :=
                       pkg.json.peerDependencies.map Prod.fst
                         ++ (pkg.json.dependencies.map Prod.fst).filter
                           (fun n => strStartsWith n "@remirror/")
                     running := false
                     gzip := true }]) acc
          = acc ++ l.filterMap specSizeLimitEntry := by
      intro l
      induction l with
      | nil => intro acc; simp
      | cons pkg l ih =>
        intro acc
        rw [List.foldl_cons, List.filterMap_cons]
        cases h1 : jsStr pkg.json.sizeLimit with
        | none => simp [specSizeLimitEntry, h1, ih]
        | some limit =>
          cases h2 : jsStr (getBrowserPath pkg.json) with
          | none => simp [specSizeLimitEntry, h1, h2, ih]
          | some entryFile =>
            rw [ih]
            simp [specSizeLimitEntry, h1, h2, getRelativePathFromJson]
    simpa [generateSizeLimitConfig] using aux packages []
  · intro pkg
    unfold specSizeLimitEntry
    cases h1 : jsStr pkg.json.sizeLimit with
    | none =>
      have := jsStr_isSome pkg.json.sizeLimit
      rw [h1] at this
      simp [← this]
    | some limit =>
      have ht : jsTruthy pkg.json.sizeLimit = true := by
        rw [← jsStr_isSome, h1]; rfl
      cases h2 : jsStr (getBrowserPath pkg.json) with
      | none =>
        have := jsStr_isSome (getBrowserPath pkg.json)
        rw [h2] at this
        simp [ht, ← this]
      | some entryFile =>
        have ht2 : jsTruthy (getBrowserPath pkg.json) = true := by
          rw [← jsStr_isSome, h2]; rfl
        simp [ht, ht2]

/-- C9: the npm publish job runs exactly when the triggering event is a
completed run of the `ci` workflow on `main` whose conclusion is `success`,
so no publish happens after a failed or cancelled CI run. -/
theorem publish_trigger_guard (e : WorkflowRunEvent) :
    npmJobRuns e = true ↔
      (e.workflowName = "ci" ∧ e.branch = "main" ∧ e.activityType = "completed"
        ∧ e.conclusion = "success") := by
  simp [npmJobRuns, publishTriggered, Bool.and_eq_true, beq_iff_eq, and_assoc]

theorem lookupKey_exportFieldPairs (filepath : String) (pj json : PackageJson) :
    lookupKey (exportFieldPairs filepath pj json) "import"
        = exportCondition filepath json.module
    ∧ lookupKey (exportFieldPairs filepath pj json) "require"
        = exportCondition filepath json.main
    ∧ lookupKey (exportFieldPairs filepath pj json) "browser"
        = exportCondition filepath (getBrowserPath pj)
    ∧ lookupKey (exportFieldPairs filepath pj json) "types"
        = exportCondition filepath json.types
    ∧ lookupKey (exportFieldPairs filepath pj json) "default"
        = exportCondition filepath json.module := by
  cases h1 : exportCondition filepath json.module
    <;> cases h2 : exportCondition filepath json.main
    <;> cases h3 : exportCondition filepath (getBrowserPath pj)
    <;> cases h4 : exportCondition filepath json.types
    <;> simp [exportFieldPairs, optPair, lookupKey, h1, h2, h3, h4]

theorem exportCondition_of_falsy {field : Option String} (filepath : String)
    (h : jsTruthy field = false) : exportCondition filepath field = none := by
  cases field with
  | none => rfl
  | some s =>
    have hs : s = "" := by simpa [jsTruthy] using h
    simp [exportCondition, jsStr, hs, prefixRelativePathOpt]

/-- C10 (amended): in every generated export entry the `default` condition
equals the `import` condition; a condition whose source value — the
sub-package's `module`, `main` or `types`, or the browser path computed from
the containing package's package.json — is JS-falsy is omitted rather than
present with an undefined value; and the entry set for the package root path
`.` also maps `./package.json` to itself and `./types/*` to
`./dist/declarations/src/*.d.ts`. -/
theorem export_field_default_omission (filepath : String) (pj json : PackageJson)
    (acc : List (String × ExportVal)) :
    lookupKey (exportFieldPairs filepath pj json) "default"
        = lookupKey (exportFieldPairs filepath pj json) "import"
    ∧ (jsTruthy json.module = false →
        lookupKey (exportFieldPairs filepath pj json) "import" = none
        ∧ lookupKey (exportFieldPairs filepath pj json) "default" = none)
    ∧ (jsTruthy json.main = false →
        lookupKey (exportFieldPairs filepath pj json) "require" = none)
    ∧ (jsTruthy (getBrowserPath pj) = false →
        lookupKey (exportFieldPairs filepath pj json) "browser" = none)
    ∧ (jsTruthy json.types = false →
        lookupKey (exportFieldPairs filepath pj json) "types" = none)
    ∧ lookupKey (augmentExportsObject pj acc "." json) "./package.json"
        = some (ExportVal.str "./package.json")
    ∧ lookupKey (augmentExportsObject pj acc "." json) "./types/*"
        = some (ExportVal.str "./dist/declarations/src/*.d.ts") := by
  obtain ⟨hi, hr, hb, ht, hd⟩ := lookupKey_exportFieldPairs filepath pj json
  refine ⟨by rw [hi, hd], ?_, ?_, ?_, ?_, ?_, ?_⟩
  · intro h
    exact ⟨by rw [hi, exportCondition_of_falsy filepath h],
           by rw [hd, exportCondition_of_falsy filepath h]⟩
  · intro h
    rw [hr, exportCondition_of_falsy filepath h]
  · intro h
    rw [hb, exportCondition_of_falsy filepath h]
  · intro h
    rw [ht, exportCondition_of_falsy filepath h]
  · show lookupKey
      (insertKey (insertKey (insertKey acc "." _) "./package.json" _) "./types/*" _)
      "./package.json" = _
    rw [lookupKey_insertKey_ne _ _ _ (by decide), lookupKey_insertKey_self]
  · show lookupKey
      (insertKey (insertKey (insertKey acc "." _) "./package.json" _) "./types/*" _)
      "./types/*" = _
    rw [lookupKey_insertKey_self]

/-- C10 counterexample: a sub-package with no entry fields of its own still
receives a `browser` condition, derived from the containing package's
`module` field, so a condition whose source field is absent in the
sub-package's package.json is not omitted. -/
theorem export_field_browser_source_cex :
    lookupKey (exportFieldPairs "./lib" cexParentB cexSubB) "browser" = some "./lib/dist/p.js"
    ∧ getBrowserPath cexSubB = none
    ∧ cexSubB.browser = none
    ∧ cexSubB.module = none := by
  refine ⟨by decide, rfl, rfl, rfl⟩

/-- Witness for C10 at a concrete parent and field-free sub-package. -/
theorem export_field_default_omission_witness :
    (jsTruthy cexSubB.module = false ∧ jsTruthy cexSubB.main = false
      ∧ jsTruthy (getBrowserPath cexParent) = false ∧ jsTruthy cexSubB.types = false)
    ∧ lookupKey (exportFieldPairs "./x" cexParent cexSubB) "default"
        = lookupKey (exportFieldPairs "./x" cexParent cexSubB) "import"
    ∧ lookupKey (exportFieldPairs "./x" cexParent cexSubB) "browser" = none
    ∧ lookupKey (augmentExportsObject cexParent [] "." cexSubB) "./package.json"
        = some (ExportVal.str "./package.json")
    ∧ lookupKey (augmentExportsObject cexParent [] "." cexSubB) "./types/*"
        = some (ExportVal.str "./dist/declarations/src/*.d.ts") :=
  have h := export_field_default_omission "./x" cexParent cexSubB []
  ⟨⟨rfl, rfl, rfl, rfl⟩, h.1, h.2.2.2.1 rfl, h.2.2.2.2.2.1, h.2.2.2.2.2.2⟩
